import Mathlib

/-!
Shallow embedding of `src/ai/src/utils/retry-helper.ts` (function
`retryWithBackoff`), together with theorems settling the specification
claims about it.

Modelling conventions:
* A thrown JS error object is modelled by `Err`, carrying its optional
  `message` string (`error.message` may be `undefined`).
* The wrapped async operation `fn` is modelled as a function from the
  0-based attempt index to the outcome of that invocation, so that a
  single Lean value describes the behaviour of the operation across all
  attempts of one run.
* JS numbers (delays, the backoff multiplier, the parsed retry hint) are
  modelled as exact rationals; `Math.ceil` becomes the integer ceiling
  and `Math.min` becomes `min`.
* The executor returns a `RunResult` recording the outcome (success
  value or propagated error), the number of invocations of the
  operation, and the list of waits (`setTimeout` durations in ms) in
  order.  The `console.log` call has no effect on control flow and is
  not modelled.
-/

namespace RetryHelper

/-- Model of a JS error object as seen by the retry helper: only its
optional `message` field is inspected. -/
structure Err where
  message : Option String
deriving DecidableEq, Repr

/-- Boolean test that one list starts with another, used to implement
substring search. -/
def listStartsWith : List Char → List Char → Bool
  | [], _ => true
  | _ :: _, [] => false
  | p :: ps, c :: cs => p == c && listStartsWith ps cs

/-- Boolean substring occurrence test on character lists: does the
second list contain the first as a contiguous run? -/
def listIncludes : List Char → List Char → Bool
  | pat, [] => pat.isEmpty
  | pat, c :: cs => listStartsWith pat (c :: cs) || listIncludes pat cs

/-- Model of the JS `String.prototype.includes` (case-sensitive
substring containment): `strIncludes s pat` is `s.includes(pat)`. -/
def strIncludes (s pat : String) : Bool :=
  listIncludes pat.toList s.toList

/-- Case-insensitive substring containment (ASCII lowering).  This is a
spec-side notion used to compare the specification text about
case-insensitive matching with the code; the source itself uses the
case-sensitive `includes`. -/
def strIncludesCI (s pat : String) : Bool :=
  listIncludes (pat.toList.map Char.toLower) (s.toList.map Char.toLower)

/-- Model of the optional chain `error.message?.includes(pat)` coerced
to a boolean: an absent message yields `false`. -/
def includesM : Option String → String → Bool
  | none, _ => false
  | some s, pat => strIncludes s pat

/-- Source lines 34-36: the disjunction of the includes checks on the
message for the substrings 429, quota and rate limit. -/
def isRateLimitError (m : Option String) : Bool :=
  includesM m "429" || includesM m "quota" || includesM m "rate limit"

/-- Source lines 37-38: the disjunction of the includes checks on the
message for the substrings 500 and 503. -/
def isServerError (m : Option String) : Bool :=
  includesM m "500" || includesM m "503"

/-- An error is retryable when it passes the guard on source line 40,
i.e. when `!(isRateLimitError && !isServerError)` does not fire:
`isRateLimitError || isServerError`. -/
def isRetryableMsg (m : Option String) : Bool :=
  isRateLimitError m || isServerError m

/-- Case-insensitive match of the literal `"retry in "` at the head of
the list (the letters of the regex `/retry in .../i`); on success
returns the remainder. -/
def dropRetryInCI : List Char → List Char → Option (List Char)
  | [], cs => some cs
  | _ :: _, [] => none
  | p :: ps, c :: cs => if p.toLower = c.toLower then dropRetryInCI ps cs else none

/-- Greedy span of ASCII digits (`\d+` of the regex): the maximal digit
run at the head of the list, and the remainder. -/
def spanDigits : List Char → List Char × List Char
  | [] => ([], [])
  | c :: cs =>
    if c.isDigit then
      (c :: (spanDigits cs).1, (spanDigits cs).2)
    else ([], c :: cs)

/-- Match of the capture group `(\d+(?:\.\d+)?)` at the head of the
list: a nonempty digit run, optionally followed by a dot and a further
nonempty digit run.  Returns the captured characters. -/
def matchNumAt (cs : List Char) : Option (List Char) :=
  let s := spanDigits cs
  if s.1.isEmpty then none
  else
    match s.2 with
    | '.' :: rest =>
      let f := spanDigits rest
      if f.1.isEmpty then some s.1 else some (s.1 ++ '.' :: f.1)
    | _ => some s.1

/-- Attempt to match the whole regex `/retry in (\d+(?:\.\d+)?)/i` at
the current position. -/
def matchAt (cs : List Char) : Option (List Char) :=
  match dropRetryInCI "retry in ".toList cs with
  | none => none
  | some rest => matchNumAt rest

/-- Left-to-right scan for the first match of the regex, as
`String.prototype.match` performs it. -/
def scanRetryIn : List Char → Option (List Char)
  | [] => none
  | c :: cs =>
    match matchAt (c :: cs) with
    | some cap => some cap
    | none => scanRetryIn cs

/-- Source line 53: `error.message?.match(/retry in (\d+(?:\.\d+)?)/i)`
reduced to its capture group; `none` when the message is absent or the
regex does not match. -/
def matchRetryIn : Option String → Option (List Char)
  | none => none
  | some s => scanRetryIn s.toList

/-- Value of a digit run as a natural number. -/
def digitsToNat (ds : List Char) : Nat :=
  ds.foldl (fun acc c => acc * 10 + (c.toNat - '0'.toNat)) 0

/-- Model of `parseFloat` on a captured string of the shape
`digits` or `digits.digits`, in exact rational arithmetic. -/
def parseDec (cs : List Char) : ℚ :=
  let s := spanDigits cs
  match s.2 with
  | '.' :: rest => (digitsToNat s.1 : ℚ) + (digitsToNat rest : ℚ) / (10 : ℚ) ^ rest.length
  | _ => (digitsToNat s.1 : ℚ)

/-- Wait time selected on source lines 54-60 before the `maxDelay` cap:
the current delay, unless the message carries a `retry in` hint, in
which case `Math.ceil(parseFloat(hint) * 1000)`. -/
def chosenWait (m : Option String) (delay : ℚ) : ℚ :=
  match matchRetryIn m with
  | some cap => ((⌈parseDec cap * 1000⌉ : ℤ) : ℚ)
  | none => delay

/-- Rendering of `error.message` inside a JS template literal: an
`undefined` message interpolates as the text `undefined`. -/
def msgText : Option String → String
  | none => "undefined"
  | some s => s

/-- Message of the error synthesized on source lines 47-49. -/
def exhaustedMsg (maxRetries : Nat) (m : Option String) : String :=
  "Max retries (" ++ toString maxRetries ++ ") reached. Last error: " ++ msgText m

/-- Classified exit error of one executor run.  `original` is the
caught error rethrown unmodified (line 42); `exhausted` is the fresh
`Error` built on lines 47-49; `fallback` is the defensive post-loop
throw on line 78, which rethrows `lastError` when one was captured and
otherwise a fresh unknown-retry-failure `Error`; it carries the final
value of `lastError`. -/
inductive RetryError where
  | original (e : Err)
  | exhausted (message : String)
  | fallback (lastError : Option Err)
deriving DecidableEq, Repr

deriving instance DecidableEq for Except

/-- Observable outcome of one executor run: the returned value or
propagated error, the number of invocations of the operation, and the
list of waits in milliseconds in chronological order. -/
structure RunResult (T : Type) where
  result : Except RetryError T
  invocations : Nat
  waits : List ℚ
deriving DecidableEq, Repr

/-- Configuration record `RetryOptions` of the source, all fields
optional. -/
structure RetryOptions where
  maxRetries : Option Nat := none
  initialDelay : Option ℚ := none
  maxDelay : Option ℚ := none
  backoffMultiplier : Option ℚ := none
deriving DecidableEq, Repr

/-- The `for (let attempt = 0; attempt <= maxRetries; attempt++)` loop
of the source, lines 27-75.  Arguments `attempt`, `delay` and
`lastError` are the loop state; when the guard fails the function
reaches the post-loop `throw` of line 78. -/
def retryLoop {T : Type} (fn : Nat → Except Err T) (maxRetries : Nat)
    (maxDelay backoffMultiplier : ℚ)
    (attempt : Nat) (delay : ℚ) (lastError : Option Err) : RunResult T :=
  if h : attempt ≤ maxRetries then
    match fn attempt with
    | .ok v => ⟨.ok v, 1, []⟩
    | .error e =>
      if !(isRateLimitError e.message) && !(isServerError e.message) then
        ⟨.error (.original e), 1, []⟩
      else if h2 : attempt = maxRetries then
        ⟨.error (.exhausted (exhaustedMsg maxRetries e.message)), 1, []⟩
      else
        let waitTime := min (chosenWait e.message delay) maxDelay
        let rest := retryLoop fn maxRetries maxDelay backoffMultiplier
          (attempt + 1) (min (delay * backoffMultiplier) maxDelay) (some e)
        ⟨rest.result, rest.invocations + 1, waitTime :: rest.waits⟩
  else
    ⟨.error (.fallback lastError), 0, []⟩
termination_by maxRetries + 1 - attempt
decreasing_by omega

/-- The exported `retryWithBackoff` function: destructures the options
with their defaults (source lines 17-22) and runs the attempt loop from
attempt 0 with `delay = initialDelay` and no error captured yet. -/
def retryWithBackoff {T : Type} (fn : Nat → Except Err T)
    (options : RetryOptions) : RunResult T :=
  let maxRetries := options.maxRetries.getD 5
  let initialDelay := options.initialDelay.getD 1000
  let maxDelay := options.maxDelay.getD 60000
  let backoffMultiplier := options.backoffMultiplier.getD 2
  retryLoop fn maxRetries maxDelay backoffMultiplier 0 initialDelay none

/-- Recogniser for the defensive post-loop exit kind. -/
def hasFallback {T : Type} : Except RetryError T → Bool
  | .error (.fallback _) => true
  | _ => false

/-- Copy of a configuration with every absent field replaced by its
documented default. -/
def fillDefaults (o : RetryOptions) : RetryOptions :=
  ⟨some (o.maxRetries.getD 5), some (o.initialDelay.getD 1000),
   some (o.maxDelay.getD 60000), some (o.backoffMultiplier.getD 2)⟩

/-! ### Concrete operations used in witnesses and counterexamples -/

/-- Operation failing once with a non-retryable error, then
succeeding. -/
def permThenOk : Nat → Except Err Nat :=
  fun n => if n = 0 then .error ⟨some "permission denied"⟩ else .ok 7

/-- Operation that always fails with a retryable server error. -/
def always503 : Nat → Except Err Nat :=
  fun _ => .error ⟨some "503"⟩

/-- Operation failing with four retryable errors, then succeeding. -/
def fourFailsThenOk : Nat → Except Err Nat :=
  fun n => if n < 4 then .error ⟨some "503"⟩ else .ok 0

/-- Operation failing once with a rate-limit error carrying a retry
hint, then succeeding. -/
def hintThenOk : Nat → Except Err Nat :=
  fun n =>
    if n = 0 then .error ⟨some "rate limit exceeded, retry in 2.5 seconds"⟩
    else .ok 1

/-- Operation that always fails with a non-retryable error carrying a
retry hint. -/
def hintNonRetry : Nat → Except Err Nat :=
  fun _ => .error ⟨some "unauthorized, retry in 3 seconds"⟩

/-- Operation that always succeeds. -/
def alwaysOk : Nat → Except Err Nat :=
  fun _ => .ok 42

/-- Configuration of the worked backoff example: `initialDelay = 1000`,
`backoffMultiplier = 2`, `maxDelay = 5000`. -/
def optsC6 : RetryOptions :=
  ⟨some 5, some 1000, some 5000, some 2⟩

/-! ### Correspondence of the executable substring search with
`List.IsPrefix` and `List.IsInfix` -/

theorem listStartsWith_iff (p : List Char) : ∀ l, listStartsWith p l = true ↔ p <+: l := by
  induction p with
  | nil => intro l; simp [listStartsWith, List.nil_prefix]
  | cons a ps ih =>
    intro l
    cases l with
    | nil => simp [listStartsWith, List.prefix_nil]
    | cons c cs => simp [listStartsWith, List.cons_prefix_cons, ih]

theorem listIncludes_iff (p : List Char) : ∀ l, listIncludes p l = true ↔ p <:+: l := by
  intro l
  induction l with
  | nil => simp [listIncludes, List.isEmpty_iff, List.infix_nil]
  | cons c cs ih =>
    simp [listIncludes, List.infix_cons_iff, listStartsWith_iff, ih]

theorem strIncludes_iff (s pat : String) : strIncludes s pat = true ↔ pat.toList <:+: s.toList :=
  listIncludes_iff pat.toList s.toList

theorem toList_append (a b : String) : (a ++ b).toList = a.toList ++ b.toList :=
  String.data_append a b

/-- A middle chunk of a three-part concatenation is found by the
substring search. -/
theorem strIncludes_append_mid (a b c : String) : strIncludes (a ++ b ++ c) b = true := by
  rw [strIncludes_iff, toList_append, toList_append]
  exact List.infix_append a.toList b.toList c.toList

/-- A final chunk of a concatenation is found by the substring
search. -/
theorem strIncludes_append_right (a b : String) : strIncludes (a ++ b) b = true := by
  rw [strIncludes_iff, toList_append]
  exact ⟨a.toList, [], by simp⟩

/-- The synthesized exhaustion message contains the decimal rendering
of the configured retry budget. -/
theorem exhaustedMsg_contains_count (mr : Nat) (m : Option String) :
    strIncludes (exhaustedMsg mr m) (toString mr) = true := by
  unfold exhaustedMsg
  rw [String.append_assoc]
  exact strIncludes_append_mid _ _ _

/-- The synthesized exhaustion message contains the rendering of the
last underlying error message. -/
theorem exhaustedMsg_contains_last (mr : Nat) (m : Option String) :
    strIncludes (exhaustedMsg mr m) (msgText m) = true := by
  unfold exhaustedMsg
  exact strIncludes_append_right _ _

/-! ### Small boolean bridges for the retryability guard on source
line 40 -/

theorem guard_of_not_retryable {m : Option String} (hnr : isRetryableMsg m = false) :
    (!(isRateLimitError m) && !(isServerError m)) = true := by
  unfold isRetryableMsg at hnr
  cases h1 : isRateLimitError m <;> cases h2 : isServerError m <;> simp_all

theorem guard_of_retryable {m : Option String} (hr : isRetryableMsg m = true) :
    (!(isRateLimitError m) && !(isServerError m)) = false := by
  unfold isRetryableMsg at hr
  cases h1 : isRateLimitError m <;> cases h2 : isServerError m <;> simp_all

/-! ### One-step unfolding lemmas for the attempt loop -/

theorem retryLoop_guard_false {T : Type} (fn : Nat → Except Err T) (mr : Nat) (md bm : ℚ)
    (a : Nat) (d : ℚ) (l : Option Err) (h : ¬ a ≤ mr) :
    retryLoop fn mr md bm a d l = ⟨.error (.fallback l), 0, []⟩ := by
  rw [retryLoop, dif_neg h]

theorem retryLoop_ok {T : Type} (fn : Nat → Except Err T) (mr : Nat) (md bm : ℚ)
    (a : Nat) (d : ℚ) (l : Option Err) {v : T}
    (h : a ≤ mr) (hfa : fn a = .ok v) :
    retryLoop fn mr md bm a d l = ⟨.ok v, 1, []⟩ := by
  rw [retryLoop, dif_pos h, hfa]

theorem retryLoop_nonretry {T : Type} (fn : Nat → Except Err T) (mr : Nat) (md bm : ℚ)
    (a : Nat) (d : ℚ) (l : Option Err) {e : Err}
    (h : a ≤ mr) (hfa : fn a = .error e) (hnr : isRetryableMsg e.message = false) :
    retryLoop fn mr md bm a d l = ⟨.error (.original e), 1, []⟩ := by
  rw [retryLoop, dif_pos h, hfa]
  simp [guard_of_not_retryable hnr]

theorem retryLoop_last {T : Type} (fn : Nat → Except Err T) (mr : Nat) (md bm : ℚ)
    (d : ℚ) (l : Option Err) {e : Err}
    (hfa : fn mr = .error e) (hr : isRetryableMsg e.message = true) :
    retryLoop fn mr md bm mr d l
      = ⟨.error (.exhausted (exhaustedMsg mr e.message)), 1, []⟩ := by
  rw [retryLoop, dif_pos (le_refl mr), hfa]
  simp [guard_of_retryable hr]

theorem retryLoop_step {T : Type} (fn : Nat → Except Err T) (mr : Nat) (md bm : ℚ)
    (a : Nat) (d : ℚ) (l : Option Err) {e : Err}
    (h : a < mr) (hfa : fn a = .error e) (hr : isRetryableMsg e.message = true) :
    retryLoop fn mr md bm a d l =
      ⟨(retryLoop fn mr md bm (a + 1) (min (d * bm) md) (some e)).result,
       (retryLoop fn mr md bm (a + 1) (min (d * bm) md) (some e)).invocations + 1,
       min (chosenWait e.message d) md
         :: (retryLoop fn mr md bm (a + 1) (min (d * bm) md) (some e)).waits⟩ := by
  rw [retryLoop, dif_pos (le_of_lt h), hfa]
  simp [guard_of_retryable hr, Nat.ne_of_lt h]

/-! ### Whole-run lemmas, each by induction on the number of remaining
permitted attempts -/

theorem retryLoop_invocations_le {T : Type} (fn : Nat → Except Err T) (mr : Nat) (md bm : ℚ) :
    ∀ n a d l, mr + 1 - a ≤ n →
      (retryLoop fn mr md bm a d l).invocations ≤ mr + 1 - a := by
  intro n
  induction n with
  | zero =>
    intro a d l hn
    rw [retryLoop_guard_false fn mr md bm a d l (by omega)]
    exact Nat.zero_le _
  | succ n ih =>
    intro a d l hn
    by_cases hg : a ≤ mr
    · cases hfa : fn a with
      | ok v =>
        rw [retryLoop_ok fn mr md bm a d l hg hfa]
        show (1 : Nat) ≤ mr + 1 - a
        omega
      | error e =>
        cases hr : isRetryableMsg e.message with
        | false =>
          rw [retryLoop_nonretry fn mr md bm a d l hg hfa hr]
          show (1 : Nat) ≤ mr + 1 - a
          omega
        | true =>
          by_cases hm : a = mr
          · subst hm
            rw [retryLoop_last fn a md bm d l hfa hr]
            show (1 : Nat) ≤ a + 1 - a
            omega
          · rw [retryLoop_step fn mr md bm a d l (by omega) hfa hr]
            have hrec := ih (a + 1) (min (d * bm) md) (some e) (by omega)
            show (retryLoop fn mr md bm (a + 1) (min (d * bm) md) (some e)).invocations + 1
              ≤ mr + 1 - a
            omega
    · rw [retryLoop_guard_false fn mr md bm a d l hg]
      exact Nat.zero_le _

theorem retryLoop_run_ok {T : Type} (fn : Nat → Except Err T) (mr : Nat) (md bm : ℚ)
    (k : Nat) (v : T) (hk : k ≤ mr) (hfk : fn k = .ok v)
    (hpre : ∀ j, j < k → ∃ e, fn j = .error e ∧ isRetryableMsg e.message = true) :
    ∀ n a d l, a + n = k →
      ∃ ws, retryLoop fn mr md bm a d l = ⟨.ok v, n + 1, ws⟩ ∧ ws.length = n := by
  intro n
  induction n with
  | zero =>
    intro a d l ha
    have hak : a = k := by omega
    subst hak
    exact ⟨[], retryLoop_ok fn mr md bm a d l (by omega) hfk, rfl⟩
  | succ n ih =>
    intro a d l ha
    obtain ⟨e, hfa, hr⟩ := hpre a (by omega)
    obtain ⟨ws, heq, hlen⟩ := ih (a + 1) (min (d * bm) md) (some e) (by omega)
    refine ⟨min (chosenWait e.message d) md :: ws, ?_, by simp [hlen]⟩
    rw [retryLoop_step fn mr md bm a d l (by omega) hfa hr, heq]

theorem retryLoop_run_original {T : Type} (fn : Nat → Except Err T) (mr : Nat) (md bm : ℚ)
    (k : Nat) (e : Err) (hk : k ≤ mr) (hfk : fn k = .error e)
    (hnr : isRetryableMsg e.message = false)
    (hpre : ∀ j, j < k → ∃ e2, fn j = .error e2 ∧ isRetryableMsg e2.message = true) :
    ∀ n a d l, a + n = k →
      ∃ ws, retryLoop fn mr md bm a d l = ⟨.error (.original e), n + 1, ws⟩ ∧ ws.length = n := by
  intro n
  induction n with
  | zero =>
    intro a d l ha
    have hak : a = k := by omega
    subst hak
    exact ⟨[], retryLoop_nonretry fn mr md bm a d l (by omega) hfk hnr, rfl⟩
  | succ n ih =>
    intro a d l ha
    obtain ⟨e2, hfa, hr⟩ := hpre a (by omega)
    obtain ⟨ws, heq, hlen⟩ := ih (a + 1) (min (d * bm) md) (some e2) (by omega)
    refine ⟨min (chosenWait e2.message d) md :: ws, ?_, by simp [hlen]⟩
    rw [retryLoop_step fn mr md bm a d l (by omega) hfa hr, heq]

theorem retryLoop_run_exhausted {T : Type} (fn : Nat → Except Err T) (mr : Nat) (md bm : ℚ)
    (hall : ∀ j, ∃ e, fn j = .error e ∧ isRetryableMsg e.message = true) :
    ∀ n a d l, a + n = mr →
      ∃ e ws, fn mr = .error e ∧
        retryLoop fn mr md bm a d l
          = ⟨.error (.exhausted (exhaustedMsg mr e.message)), n + 1, ws⟩ ∧
        ws.length = n := by
  intro n
  induction n with
  | zero =>
    intro a d l ha
    have hak : a = mr := by omega
    subst hak
    obtain ⟨e, hfa, hr⟩ := hall a
    exact ⟨e, [], hfa, retryLoop_last fn a md bm d l hfa hr, rfl⟩
  | succ n ih =>
    intro a d l ha
    obtain ⟨e, hfa, hr⟩ := hall a
    obtain ⟨e2, ws, hfmr, heq, hlen⟩ := ih (a + 1) (min (d * bm) md) (some e) (by omega)
    refine ⟨e2, min (chosenWait e.message d) md :: ws, hfmr, ?_, by simp [hlen]⟩
    rw [retryLoop_step fn mr md bm a d l (by omega) hfa hr, heq]

theorem retryLoop_not_fallback {T : Type} (fn : Nat → Except Err T) (mr : Nat) (md bm : ℚ) :
    ∀ n a d l, a + n = mr →
      hasFallback (retryLoop fn mr md bm a d l).result = false := by
  intro n
  induction n with
  | zero =>
    intro a d l ha
    have hak : a = mr := by omega
    subst hak
    cases hfa : fn a with
    | ok v => rw [retryLoop_ok fn a md bm a d l (le_refl a) hfa]; rfl
    | error e =>
      cases hr : isRetryableMsg e.message with
      | false => rw [retryLoop_nonretry fn a md bm a d l (le_refl a) hfa hr]; rfl
      | true => rw [retryLoop_last fn a md bm d l hfa hr]; rfl
  | succ n ih =>
    intro a d l ha
    cases hfa : fn a with
    | ok v => rw [retryLoop_ok fn mr md bm a d l (by omega) hfa]; rfl
    | error e =>
      cases hr : isRetryableMsg e.message with
      | false => rw [retryLoop_nonretry fn mr md bm a d l (by omega) hfa hr]; rfl
      | true =>
        rw [retryLoop_step fn mr md bm a d l (by omega) hfa hr]
        exact ih (a + 1) (min (d * bm) md) (some e) (by omega)

theorem retryLoop_waits_clamped {T : Type} (fn : Nat → Except Err T) (mr : Nat) (md bm : ℚ) :
    ∀ n a d l, mr + 1 - a ≤ n →
      ((retryLoop fn mr md bm a d l).waits.all fun w => decide (w ≤ md)) = true := by
  intro n
  induction n with
  | zero =>
    intro a d l hn
    rw [retryLoop_guard_false fn mr md bm a d l (by omega)]
    rfl
  | succ n ih =>
    intro a d l hn
    by_cases hg : a ≤ mr
    · cases hfa : fn a with
      | ok v => rw [retryLoop_ok fn mr md bm a d l hg hfa]; rfl
      | error e =>
        cases hr : isRetryableMsg e.message with
        | false => rw [retryLoop_nonretry fn mr md bm a d l hg hfa hr]; rfl
        | true =>
          by_cases hm : a = mr
          · subst hm; rw [retryLoop_last fn a md bm d l hfa hr]; rfl
          · rw [retryLoop_step fn mr md bm a d l (by omega) hfa hr]
            simp only [List.all_cons, Bool.and_eq_true, decide_eq_true_eq]
            exact ⟨min_le_right _ _, ih (a + 1) (min (d * bm) md) (some e) (by omega)⟩
    · rw [retryLoop_guard_false fn mr md bm a d l hg]; rfl

/-! ## Claim theorems -/

/-- C1 (amended).  For every configuration and every operation, the
executor invokes the wrapped operation at most `maxRetries + 1` times;
and if the operation first succeeds at 0-based attempt index `k` with
`k ≤ maxRetries` and every failure before attempt `k` is classified
retryable, then the operation is invoked exactly `k + 1` times and the
executor returns that success value. -/
theorem claim1_attempt_budget :
    (∀ (T : Type) (fn : Nat → Except Err T) (o : RetryOptions),
        (retryWithBackoff fn o).invocations ≤ o.maxRetries.getD 5 + 1) ∧
    (∀ (T : Type) (fn : Nat → Except Err T) (o : RetryOptions) (k : Nat) (v : T),
        k ≤ o.maxRetries.getD 5 → fn k = .ok v →
        (∀ j, j < k → ∃ e, fn j = .error e ∧ isRetryableMsg e.message = true) →
        (retryWithBackoff fn o).result = .ok v ∧
          (retryWithBackoff fn o).invocations = k + 1) := by
  constructor
  · intro T fn o
    have h := retryLoop_invocations_le fn (o.maxRetries.getD 5) (o.maxDelay.getD 60000)
      (o.backoffMultiplier.getD 2) (o.maxRetries.getD 5 + 1) 0 (o.initialDelay.getD 1000)
      none (by omega)
    show (retryLoop fn (o.maxRetries.getD 5) (o.maxDelay.getD 60000)
        (o.backoffMultiplier.getD 2) 0 (o.initialDelay.getD 1000) none).invocations
      ≤ o.maxRetries.getD 5 + 1
    omega
  · intro T fn o k v hk hfk hpre
    obtain ⟨ws, heq, hlen⟩ := retryLoop_run_ok fn (o.maxRetries.getD 5)
      (o.maxDelay.getD 60000) (o.backoffMultiplier.getD 2) k v hk hfk hpre
      k 0 (o.initialDelay.getD 1000) none (by omega)
    constructor
    · show (retryLoop fn (o.maxRetries.getD 5) (o.maxDelay.getD 60000)
          (o.backoffMultiplier.getD 2) 0 (o.initialDelay.getD 1000) none).result = .ok v
      rw [heq]
    · show (retryLoop fn (o.maxRetries.getD 5) (o.maxDelay.getD 60000)
          (o.backoffMultiplier.getD 2) 0 (o.initialDelay.getD 1000) none).invocations = k + 1
      rw [heq]

/-- C1 witness: an operation succeeding on its first attempt, under the
default configuration, is invoked exactly once and its value is
returned. -/
theorem claim1_attempt_budget_witness :
    (0 : Nat) ≤ ({} : RetryOptions).maxRetries.getD 5 ∧
    (retryWithBackoff alwaysOk {}).result = .ok 42 ∧
    (retryWithBackoff alwaysOk {}).invocations = 0 + 1 :=
  ⟨Nat.zero_le _,
   (claim1_attempt_budget.2 Nat alwaysOk {} 0 42 (by decide) rfl
      (fun j hj => absurd hj (by omega))).1,
   (claim1_attempt_budget.2 Nat alwaysOk {} 0 42 (by decide) rfl
      (fun j hj => absurd hj (by omega))).2⟩

/-- C1 counterexample to the claim as stated: `permThenOk` first
succeeds at attempt index 1 (attempt 0 fails, but with a non-retryable
message), yet under the default configuration the executor invokes it
exactly once, not twice, and does not return the success value. -/
theorem claim1_attempt_budget_counterexample :
    permThenOk 1 = .ok 7 ∧
    permThenOk 0 = .error ⟨some "permission denied"⟩ ∧
    (1 : Nat) ≤ ({} : RetryOptions).maxRetries.getD 5 ∧
    (retryWithBackoff permThenOk {}).invocations = 1 ∧
    ¬ (retryWithBackoff permThenOk {}).invocations = 1 + 1 ∧
    ¬ (retryWithBackoff permThenOk {}).result = .ok 7 := by
  have heq : retryWithBackoff permThenOk {}
      = ⟨.error (.original ⟨some "permission denied"⟩), 1, []⟩ := by
    simp +decide [retryWithBackoff, retryLoop, permThenOk]
  refine ⟨rfl, rfl, by decide, ?_, ?_, ?_⟩
  · rw [heq]
  · rw [heq]; decide
  · rw [heq]; decide

/-- C2 (amended).  An error is classified retryable exactly when its
message is present and contains one of the substrings 429, quota,
rate limit, 500 or 503, all matched case-sensitively; an absent or
empty message is non-retryable. -/
theorem claim2_classification :
    (∀ m : Option String, isRetryableMsg m = true ↔
      ∃ s, m = some s ∧
        ("429".toList <:+: s.toList ∨ "quota".toList <:+: s.toList ∨
         "rate limit".toList <:+: s.toList ∨ "500".toList <:+: s.toList ∨
         "503".toList <:+: s.toList)) ∧
    isRetryableMsg none = false ∧ isRetryableMsg (some "") = false := by
  refine ⟨?_, rfl, by decide⟩
  intro m
  cases m with
  | none => simp [isRetryableMsg, isRateLimitError, isServerError, includesM]
  | some s =>
    simp only [isRetryableMsg, isRateLimitError, isServerError, includesM,
      Bool.or_eq_true, strIncludes_iff, Option.some.injEq]
    constructor
    · rintro (((h | h) | h) | (h | h)) <;> exact ⟨s, rfl, by tauto⟩
    · rintro ⟨s2, rfl, (h | h | h | h | h)⟩ <;> tauto

/-- C2 counterexample to the claim as stated: the message QUOTA
exceeded contains the phrase quota case-insensitively, yet the code
classifies it as non-retryable, because `String.prototype.includes` is
case-sensitive. -/
theorem claim2_classification_counterexample :
    strIncludesCI "QUOTA exceeded" "quota" = true ∧
    isRetryableMsg (some "QUOTA exceeded") = false := by decide

/-- C3.  If every invocation fails with a retryable error, then with an
effective retry budget `N = maxRetries` the operation is invoked
exactly `N + 1` times; the executor propagates a synthesized exhaustion
error, never the original error object, whose message contains the
decimal rendering of `N` and the last underlying error message; and
only `N` waits occur, so none follows the final failed attempt. -/
theorem claim3_exhaustion {T : Type} (fn : Nat → Except Err T) (o : RetryOptions)
    (hall : ∀ j, ∃ e, fn j = .error e ∧ isRetryableMsg e.message = true) :
    ∃ e, fn (o.maxRetries.getD 5) = .error e ∧
      (retryWithBackoff fn o).result
        = .error (.exhausted (exhaustedMsg (o.maxRetries.getD 5) e.message)) ∧
      (∀ e2, (retryWithBackoff fn o).result ≠ .error (.original e2)) ∧
      strIncludes (exhaustedMsg (o.maxRetries.getD 5) e.message)
        (toString (o.maxRetries.getD 5)) = true ∧
      strIncludes (exhaustedMsg (o.maxRetries.getD 5) e.message)
        (msgText e.message) = true ∧
      (retryWithBackoff fn o).invocations = o.maxRetries.getD 5 + 1 ∧
      (retryWithBackoff fn o).waits.length = o.maxRetries.getD 5 := by
  obtain ⟨e, ws, hfmr, heq, hlen⟩ := retryLoop_run_exhausted fn (o.maxRetries.getD 5)
    (o.maxDelay.getD 60000) (o.backoffMultiplier.getD 2) hall
    (o.maxRetries.getD 5) 0 (o.initialDelay.getD 1000) none (by omega)
  refine ⟨e, hfmr, ?_, ?_, exhaustedMsg_contains_count _ _,
    exhaustedMsg_contains_last _ _, ?_, ?_⟩
  · show (retryLoop fn (o.maxRetries.getD 5) (o.maxDelay.getD 60000)
        (o.backoffMultiplier.getD 2) 0 (o.initialDelay.getD 1000) none).result = _
    rw [heq]
  · intro e2
    show (retryLoop fn (o.maxRetries.getD 5) (o.maxDelay.getD 60000)
        (o.backoffMultiplier.getD 2) 0 (o.initialDelay.getD 1000) none).result ≠ _
    rw [heq]
    simp
  · show (retryLoop fn (o.maxRetries.getD 5) (o.maxDelay.getD 60000)
        (o.backoffMultiplier.getD 2) 0 (o.initialDelay.getD 1000) none).invocations = _
    rw [heq]
  · show (retryLoop fn (o.maxRetries.getD 5) (o.maxDelay.getD 60000)
        (o.backoffMultiplier.getD 2) 0 (o.initialDelay.getD 1000)
        none).waits.length = _
    rw [heq]
    exact hlen

/-- C3 witness: the always-failing 503 operation with `maxRetries = 3`
is invoked 4 times, waits 3 times, and yields the synthesized
exhaustion error containing 3 and 503. -/
theorem claim3_exhaustion_witness :
    ∃ e, always503 3 = .error e ∧
      (retryWithBackoff always503 ⟨some 3, none, none, none⟩).result
        = .error (.exhausted (exhaustedMsg 3 e.message)) ∧
      (∀ e2, (retryWithBackoff always503 ⟨some 3, none, none, none⟩).result
        ≠ .error (.original e2)) ∧
      strIncludes (exhaustedMsg 3 e.message) (toString (3 : Nat)) = true ∧
      strIncludes (exhaustedMsg 3 e.message) (msgText e.message) = true ∧
      (retryWithBackoff always503 ⟨some 3, none, none, none⟩).invocations = 3 + 1 ∧
      (retryWithBackoff always503 ⟨some 3, none, none, none⟩).waits.length = 3 :=
  claim3_exhaustion always503 ⟨some 3, none, none, none⟩
    (fun _ => ⟨⟨some "503"⟩, rfl, by decide⟩)

/-- C4.  When an attempt fails with a non-retryable error (after any
number of earlier retryable failures), the executor propagates exactly
that error object, performs no further invocations, and adds no wait
for the failing attempt. -/
theorem claim4_nonretryable_propagation {T : Type} (fn : Nat → Except Err T)
    (o : RetryOptions) (k : Nat) (e : Err)
    (hpre : ∀ j, j < k → ∃ e2, fn j = .error e2 ∧ isRetryableMsg e2.message = true)
    (hk : fn k = .error e) (hnr : isRetryableMsg e.message = false)
    (hle : k ≤ o.maxRetries.getD 5) :
    (retryWithBackoff fn o).result = .error (.original e) ∧
    (retryWithBackoff fn o).invocations = k + 1 ∧
    (retryWithBackoff fn o).waits.length = k := by
  obtain ⟨ws, heq, hlen⟩ := retryLoop_run_original fn (o.maxRetries.getD 5)
    (o.maxDelay.getD 60000) (o.backoffMultiplier.getD 2) k e hle hk hnr hpre
    k 0 (o.initialDelay.getD 1000) none (by omega)
  refine ⟨?_, ?_, ?_⟩
  · show (retryLoop fn (o.maxRetries.getD 5) (o.maxDelay.getD 60000)
        (o.backoffMultiplier.getD 2) 0 (o.initialDelay.getD 1000) none).result = _
    rw [heq]
  · show (retryLoop fn (o.maxRetries.getD 5) (o.maxDelay.getD 60000)
        (o.backoffMultiplier.getD 2) 0 (o.initialDelay.getD 1000) none).invocations = _
    rw [heq]
  · show (retryLoop fn (o.maxRetries.getD 5) (o.maxDelay.getD 60000)
        (o.backoffMultiplier.getD 2) 0 (o.initialDelay.getD 1000)
        none).waits.length = _
    rw [heq]
    exact hlen

/-- C4 witness: a first-attempt permission-denied failure under the
default configuration means exactly one invocation, the original error
propagated, and no wait. -/
theorem claim4_nonretryable_propagation_witness :
    (retryWithBackoff permThenOk {}).result
      = .error (.original ⟨some "permission denied"⟩) ∧
    (retryWithBackoff permThenOk {}).invocations = 0 + 1 ∧
    (retryWithBackoff permThenOk {}).waits.length = 0 :=
  claim4_nonretryable_propagation permThenOk {} 0 ⟨some "permission denied"⟩
    (fun j hj => absurd hj (by omega)) rfl (by decide) (by decide)

/-- C5.  When a retryable failure carries a retry-in hint and attempts
remain, the wait recorded for that attempt is the hinted number of
seconds converted to milliseconds, rounded up to the next whole
millisecond, and clamped to `maxDelay`, replacing the backoff delay. -/
theorem claim5_hint_override {T : Type} (fn : Nat → Except Err T) (mr : Nat)
    (md bm : ℚ) (a : Nat) (d : ℚ) (l : Option Err) (e : Err) (s : String)
    (cap : List Char)
    (hfa : fn a = .error e) (hm : e.message = some s)
    (hr : isRetryableMsg e.message = true) (hlt : a < mr)
    (hscan : scanRetryIn s.toList = some cap) :
    (retryLoop fn mr md bm a d l).waits.head?
      = some (min ((⌈parseDec cap * 1000⌉ : ℤ) : ℚ) md) := by
  have hscan2 : scanRetryIn s.data = some cap := hscan
  have hcw : chosenWait e.message d = ((⌈parseDec cap * 1000⌉ : ℤ) : ℚ) := by
    rw [hm]
    simp [chosenWait, matchRetryIn, hscan2]
  rw [retryLoop_step fn mr md bm a d l hlt hfa hr]
  simp [hcw]

/-- C5 witness: the message rate limit exceeded, retry in 2.5 seconds
produces a wait of exactly 2500 milliseconds under the default
configuration. -/
theorem claim5_hint_override_witness :
    hintThenOk 0 = .error ⟨some "rate limit exceeded, retry in 2.5 seconds"⟩ ∧
    isRetryableMsg (some "rate limit exceeded, retry in 2.5 seconds") = true ∧
    scanRetryIn "rate limit exceeded, retry in 2.5 seconds".toList
      = some ['2', '.', '5'] ∧
    (retryLoop hintThenOk 5 60000 2 0 1000 none).waits.head? = some 2500 := by
  refine ⟨rfl, by decide, by decide, ?_⟩
  rw [claim5_hint_override hintThenOk 5 60000 2 0 1000 none
    ⟨some "rate limit exceeded, retry in 2.5 seconds"⟩
    "rate limit exceeded, retry in 2.5 seconds" ['2', '.', '5']
    rfl rfl (by decide) (by omega) (by decide)]
  have hsd : spanDigits ['2', '.', '5'] = (['2'], ['.', '5']) := by decide
  have h2 : digitsToNat ['2'] = 2 := by decide
  have h5 : digitsToNat ['5'] = 5 := by decide
  simp only [parseDec, hsd, h2, h5]
  norm_num

/-- C6.  Every recorded wait is clamped to `maxDelay`; absent a
message-derived override the wait for a retryable failure equals the
current delay state clamped to `maxDelay`, and the loop continues with
the delay advanced to `min (delay * backoffMultiplier) maxDelay`; with
`initialDelay = 1000`, `backoffMultiplier = 2` and `maxDelay = 5000`,
four consecutive retryable failures wait 1000, 2000, 4000 and then
5000 milliseconds, not 8000. -/
theorem claim6_backoff_progression :
    (∀ (T : Type) (fn : Nat → Except Err T) (mr : Nat) (md bm : ℚ) (a : Nat)
        (d : ℚ) (l : Option Err),
        ((retryLoop fn mr md bm a d l).waits.all fun w => decide (w ≤ md)) = true) ∧
    (∀ (T : Type) (fn : Nat → Except Err T) (mr : Nat) (md bm : ℚ) (a : Nat)
        (d : ℚ) (l : Option Err) (e : Err),
        fn a = .error e → isRetryableMsg e.message = true → a < mr →
        matchRetryIn e.message = none →
        (retryLoop fn mr md bm a d l).waits.head? = some (min d md) ∧
        (retryLoop fn mr md bm a d l).waits.tail
          = (retryLoop fn mr md bm (a + 1) (min (d * bm) md) (some e)).waits) ∧
    ((retryWithBackoff fourFailsThenOk optsC6).result = .ok 0 ∧
     (retryWithBackoff fourFailsThenOk optsC6).waits = [1000, 2000, 4000, 5000]) := by
  refine ⟨?_, ?_, ?_⟩
  · intro T fn mr md bm a d l
    exact retryLoop_waits_clamped fn mr md bm (mr + 1 - a) a d l (le_refl _)
  · intro T fn mr md bm a d l e hfa hr hlt hnone
    have hcw : chosenWait e.message d = d := by
      unfold chosenWait
      rw [hnone]
    rw [retryLoop_step fn mr md bm a d l hlt hfa hr]
    simp [hcw]
  · constructor
    · simp +decide [retryWithBackoff, retryLoop, fourFailsThenOk, optsC6,
        matchRetryIn, scanRetryIn, matchAt, dropRetryInCI]
    · simp +decide [retryWithBackoff, retryLoop, fourFailsThenOk, optsC6,
        chosenWait, matchRetryIn, scanRetryIn, matchAt, dropRetryInCI]
      norm_num

/-- C6 witness: instantiating the one-step part at the first 503
failure of the worked example confirms a first wait of
`min 1000 5000` milliseconds, and the clamp part holds on that run. -/
theorem claim6_backoff_progression_witness :
    fourFailsThenOk 0 = .error ⟨some "503"⟩ ∧
    isRetryableMsg (some "503") = true ∧
    (0 : Nat) < 5 ∧
    matchRetryIn (some "503") = none ∧
    (retryLoop fourFailsThenOk 5 5000 2 0 1000 none).waits.head?
      = some (min (1000 : ℚ) 5000) ∧
    ((retryLoop fourFailsThenOk 5 5000 2 0 1000 none).waits.all
      fun w => decide (w ≤ (5000 : ℚ))) = true :=
  ⟨rfl, by decide, by decide, by decide,
   (claim6_backoff_progression.2.1 Nat fourFailsThenOk 5 5000 2 0 1000 none
      ⟨some "503"⟩ rfl (by decide) (by decide) (by decide)).1,
   claim6_backoff_progression.1 Nat fourFailsThenOk 5 5000 2 0 1000 none⟩

/-- C7.  The defensive post-loop fallback exit is unreachable: no run
of the executor ever produces the fallback error kind. -/
theorem claim7_fallback_unreachable :
    ∀ (T : Type) (fn : Nat → Except Err T) (o : RetryOptions),
      hasFallback (retryWithBackoff fn o).result = false := by
  intro T fn o
  show hasFallback (retryLoop fn (o.maxRetries.getD 5) (o.maxDelay.getD 60000)
      (o.backoffMultiplier.getD 2) 0 (o.initialDelay.getD 1000) none).result = false
  exact retryLoop_not_fallback fn (o.maxRetries.getD 5) (o.maxDelay.getD 60000)
    (o.backoffMultiplier.getD 2) (o.maxRetries.getD 5) 0 (o.initialDelay.getD 1000)
    none (by omega)

/-- C8.  Filling any absent configuration field with its documented
default does not change the behaviour of the executor; the wholly empty
configuration behaves as `maxRetries = 5`, `initialDelay = 1000`,
`maxDelay = 60000`, `backoffMultiplier = 2`, and its attempt budget is
6 invocations. -/
theorem claim8_defaults :
    (∀ (T : Type) (fn : Nat → Except Err T) (o : RetryOptions),
        retryWithBackoff fn (fillDefaults o) = retryWithBackoff fn o) ∧
    (∀ (T : Type) (fn : Nat → Except Err T),
        retryWithBackoff fn {}
          = retryWithBackoff fn ⟨some 5, some 1000, some 60000, some 2⟩ ∧
        (retryWithBackoff fn {}).invocations ≤ 5 + 1) := by
  constructor
  · intro T fn o
    rfl
  · intro T fn
    constructor
    · rfl
    · have h := retryLoop_invocations_le fn 5 60000 2 6 0 1000 none (by omega)
      show (retryLoop fn 5 60000 2 0 1000 none).invocations ≤ 5 + 1
      omega

/-- C9.  The executor is a pure function of the operation and the
configuration: runs on pointwise-equal operations coincide, and a run
on an always-succeeding operation returns its value after exactly one
invocation with no waits, identically on every repetition. -/
theorem claim9_deterministic :
    ∀ (T : Type) (fn1 fn2 : Nat → Except Err T) (o : RetryOptions) (v : T),
      (∀ n, fn1 n = fn2 n) → (∀ n, fn1 n = .ok v) →
      retryWithBackoff fn1 o = retryWithBackoff fn2 o ∧
      retryWithBackoff fn1 o = ⟨.ok v, 1, []⟩ ∧
      (retryWithBackoff fn1 o).waits = [] := by
  intro T fn1 fn2 o v hext hok
  have h12 : fn1 = fn2 := funext hext
  subst h12
  have hrun : retryWithBackoff fn1 o = ⟨.ok v, 1, []⟩ := by
    show retryLoop fn1 (o.maxRetries.getD 5) (o.maxDelay.getD 60000)
        (o.backoffMultiplier.getD 2) 0 (o.initialDelay.getD 1000) none
      = ⟨.ok v, 1, []⟩
    exact retryLoop_ok fn1 (o.maxRetries.getD 5) (o.maxDelay.getD 60000)
      (o.backoffMultiplier.getD 2) 0 (o.initialDelay.getD 1000) none
      (Nat.zero_le _) (hok 0)
  exact ⟨rfl, hrun, by rw [hrun]⟩

/-- C9 witness: two runs of the executor on the same always-succeeding
operation under the default configuration are identical, each with a
single invocation, no waits, and the success value 42. -/
theorem claim9_deterministic_witness :
    retryWithBackoff alwaysOk {} = retryWithBackoff alwaysOk {} ∧
    retryWithBackoff alwaysOk {} = ⟨.ok 42, 1, []⟩ ∧
    (retryWithBackoff alwaysOk {}).waits = [] :=
  claim9_deterministic Nat alwaysOk alwaysOk {} 42 (fun _ => rfl) (fun _ => rfl)

/-- C10.  A retry-after hint is honoured only for retryable errors:
whenever an attempt within the budget fails with an error whose message
matches the hint pattern but is classified non-retryable, the loop
propagates that error at once, with no wait and no further
invocations. -/
theorem claim10_hint_ignored_nonretryable {T : Type} (fn : Nat → Except Err T)
    (mr : Nat) (md bm : ℚ) (a : Nat) (d : ℚ) (l : Option Err) (e : Err)
    (s : String) (cap : List Char)
    (hfa : fn a = .error e) (hm : e.message = some s)
    (hscan : scanRetryIn s.toList = some cap)
    (hnr : isRetryableMsg e.message = false) (hg : a ≤ mr) :
    retryLoop fn mr md bm a d l = ⟨.error (.original e), 1, []⟩ :=
  retryLoop_nonretry fn mr md bm a d l hg hfa hnr

/-- C10 witness: the non-retryable message unauthorized, retry in 3
seconds carries a hint, yet the loop propagates the original error
immediately with one invocation and no wait. -/
theorem claim10_hint_ignored_nonretryable_witness :
    hintNonRetry 0 = .error ⟨some "unauthorized, retry in 3 seconds"⟩ ∧
    scanRetryIn "unauthorized, retry in 3 seconds".toList = some ['3'] ∧
    isRetryableMsg (some "unauthorized, retry in 3 seconds") = false ∧
    retryLoop hintNonRetry 5 60000 2 0 1000 none
      = ⟨.error (.original ⟨some "unauthorized, retry in 3 seconds"⟩), 1, []⟩ :=
  ⟨rfl, by decide, by decide,
   claim10_hint_ignored_nonretryable hintNonRetry 5 60000 2 0 1000 none
     ⟨some "unauthorized, retry in 3 seconds"⟩ "unauthorized, retry in 3 seconds"
     ['3'] rfl rfl (by decide) (by decide) (by decide)⟩

end RetryHelper
